import Mathlib

/-!
Shallow embedding of the inventory ledger and FEFO allocation engine of
smart-inventory-api (Django/DRF).  Source files embedded here:

* `src/apps/inventory/models.py` — `Batch`, `InventoryTransaction` (and its
  `save` override that applies the entry's signed effect to the batch).
* `src/apps/inventory/serializers.py` — `BatchCreateSerializer`,
  `InwardSerializer`, `OutwardSerializer`, `AdjustmentSerializer`,
  `QuickInSerializer`, `QuickOutSerializer`.
* `src/apps/products/models.py` — `Product.total_stock`, `Product.is_low_stock`.

Modelling conventions: UUID primary keys become `Nat` identifiers; `DateField`
values become `Nat` ordinals (`20240301` for 2024-03-01) wrapped in `Option`
for nullable columns; `DecimalField` prices become `Int` (no claim performs
decimal arithmetic); `IntegerField` becomes `Int`.  Database rows live in a
`St` record; an HTTP endpoint becomes a function `St → … → Except Err St`,
where `Except.error` means the request was rejected (DRF `ValidationError`,
Django `DoesNotExist`, or a Python `TypeError`) and — because every write in
these code paths happens inside `transaction.atomic()` or after all
validation — the store is left exactly as before.  Location resolution
(`Location.objects.*` in the serializers) precedes the atomic block, touches
neither batches nor ledger, and no claim concerns it, so batch-creating
operations take an already-resolved `locationId`.  Multi-tenancy scoping and
timestamps are likewise outside every claim; `created_at` of a batch is kept
as a plain `Nat` because one claim talks about creation order.
-/

namespace SmartInventory

/-- `InventoryTransaction.TYPE_CHOICES`: `IN`, `OUT`, `ADJUST`. -/
inductive TxnType where
  | IN
  | OUT
  | ADJUST
deriving DecidableEq, Repr

/-- Row of the `batches` table (`Batch` model, src/apps/inventory/models.py). -/
structure Batch where
  id : Nat
  productId : Nat
  locationId : Nat
  batchNumber : Option String := none
  expiryDate : Option Nat := none
  manufactureDate : Option Nat := none
  quantity : Int := 0
  costPrice : Int := 0
  sellPrice : Int := 0
  createdAt : Nat := 0
deriving DecidableEq, Repr

/-- Row of the `products` table; only the fields the claims touch
(`min_stock` feeds `is_low_stock`). -/
structure Product where
  id : Nat
  min_stock : Int := 0
deriving DecidableEq, Repr

/-- Row of the `inventory_transactions` table (`InventoryTransaction` model).
The schema has no "informational"/"record only" column; the only marker the
code uses is the `skip_quantity_update` keyword passed to `save`, which is not
persisted. -/
structure Txn where
  batchId : Nat
  userId : Option Nat := none
  type : TxnType
  quantity : Int
  reason : Option String := none
  reference : Option String := none
  notes : Option String := none
deriving DecidableEq, Repr

/-- The durable store: product, batch and ledger rows. -/
structure St where
  products : List Product := []
  batches : List Batch := []
  ledger : List Txn := []
deriving DecidableEq, Repr

/-- Errors surfaced by the embedded endpoints: DRF `ValidationError`
(including the serializers' insufficient-stock rejections), Django's
`DoesNotExist`, and Python's `TypeError`. -/
inductive Err where
  | validationError
  | doesNotExist
  | typeError
deriving DecidableEq, Repr

/-- Signed effect of a ledger entry on its batch, as applied by
`InventoryTransaction.save`: `IN` adds `quantity`, `OUT` subtracts it,
`ADJUST` adds the (already signed) `quantity`. -/
def signedDelta (t : Txn) : Int :=
  match t.type with
  | TxnType.IN => t.quantity
  | TxnType.OUT => -t.quantity
  | TxnType.ADJUST => t.quantity

/-- Keyword arguments accepted by `django.db.models.Model.save`
(`force_insert`, `force_update`, `using`, `update_fields`); any other keyword
raises `TypeError` at the call. -/
def djangoSaveKwargs : List String :=
  ["force_insert", "force_update", "using", "update_fields"]

/-- Effect of committing a new `InventoryTransaction` row: the row is
appended to the ledger and the batch it references gets the entry's signed
effect added to its quantity (`self.batch.quantity ± self.quantity;
self.batch.save()`).  Batch rows are keyed by primary key, so the update hits
exactly the referenced row. -/
def applyEntry (st : St) (t : Txn) : St :=
  { st with
    ledger := st.ledger ++ [t]
    batches := st.batches.map fun b =>
      if b.id = t.batchId then { b with quantity := b.quantity + signedDelta t } else b }

/-- `InventoryTransaction.save` (src/apps/inventory/models.py lines 111-123)
combined with the `django.db.models.Model.save` it delegates to.  The
override records `is_new`, forwards `*args, **kwargs` unchanged to
`Model.save`, and afterwards applies the signed effect to the batch; its body
never reads a `skip_quantity_update` keyword.  `Model.save` accepts only the
keywords in `djangoSaveKwargs`, so a call that passes any other keyword
raises `TypeError` before the row is written.  Every call in the repository
creates a fresh row, so `is_new` is true on the successful path. -/
def txnModelSave (st : St) (t : Txn) (kwargs : List String) : Except Err St :=
  if kwargs.all (fun k => djangoSaveKwargs.contains k) then
    Except.ok (applyEntry st t)
  else
    Except.error Err.typeError

/-- `InventoryTransaction.objects.create(...)`: builds the row and calls
`save(force_insert=True)`. -/
def txnObjectsCreate (st : St) (t : Txn) : Except Err St :=
  txnModelSave st t ["force_insert"]

/-- `Batch.objects.get(id=batch_id)`: first row with the given primary key,
`DoesNotExist` when absent (primary keys are unique in the store). -/
def getBatch (st : St) (bid : Nat) : Option Batch :=
  st.batches.find? fun b => b.id = bid

/-- `Product.objects.get(id=product_id)` (tenancy scope elided). -/
def getProduct (st : St) (pid : Nat) : Option Product :=
  st.products.find? fun p => p.id = pid

/-- `InventoryTransaction.REASON_CHOICES` keys. -/
def reasonChoices : List String :=
  ["purchase", "sale", "return", "damage", "expired", "adjustment", "transfer", "sample", "other"]

/-- `product.batches.all()` — the batch rows of one product. -/
def productBatches (st : St) (pid : Nat) : List Batch :=
  st.batches.filter fun b => b.productId = pid

/-- SQL `SUM` aggregate: `NULL` (`none`) over zero rows, otherwise the sum. -/
def sqlSum (qs : List Int) : Option Int :=
  match qs with
  | [] => none
  | _ => some qs.sum

/-- Python `x or 0`: a falsy `x` (`None`, or the number `0` itself) yields
`0`, any other number is returned unchanged. -/
def pyOrZero (v : Option Int) : Int :=
  match v with
  | none => 0
  | some n => if n = 0 then 0 else n

/-- `Product.total_stock` (src/apps/products/models.py lines 78-83):
`self.batches.aggregate(total=Sum('quantity'))['total'] or 0`.  A function of
the current store only: it writes nothing and returns no state. -/
def total_stock (st : St) (pid : Nat) : Int :=
  pyOrZero (sqlSum ((productBatches st pid).map fun b => b.quantity))

/-- `Product.is_low_stock` (src/apps/products/models.py lines 89-92):
`self.total_stock <= self.min_stock`.  Also a pure read. -/
def is_low_stock (st : St) (p : Product) : Bool :=
  total_stock st p.id ≤ p.min_stock

/-- `InwardSerializer` (fields + `create`): `quantity` is an `IntegerField`
with `min_value=1`; `create` fetches the batch and calls
`InventoryTransaction.objects.create(type='IN', reason='purchase', ...)`,
whose `save` applies `+quantity` to the batch. -/
def inwardPost (st : St) (uid : Option Nat) (bid : Nat) (qty : Int)
    (ref notes : Option String) : Except Err St :=
  if qty < 1 then Except.error Err.validationError
  else
    match getBatch st bid with
    | none => Except.error Err.doesNotExist
    | some b =>
      txnObjectsCreate st
        { batchId := b.id, userId := uid, type := TxnType.IN, quantity := qty,
          reason := some "purchase", reference := ref, notes := notes }

/-- `OutwardSerializer` (fields + `validate` + `create`): `quantity` has
`min_value=1` and `reason` is a `ChoiceField` over `REASON_CHOICES`;
`validate` rejects with "Insufficient stock" when `batch.quantity <
quantity` (no write has happened yet); `create` refetches the batch and
creates the `OUT` entry, whose `save` applies `-quantity`. -/
def outwardPost (st : St) (uid : Option Nat) (bid : Nat) (qty : Int)
    (reason : String) (ref notes : Option String) : Except Err St :=
  if qty < 1 then Except.error Err.validationError
  else if reasonChoices.contains reason = false then Except.error Err.validationError
  else
    match getBatch st bid with
    | none => Except.error Err.doesNotExist
    | some b =>
      if b.quantity < qty then Except.error Err.validationError
      else
        txnObjectsCreate st
          { batchId := b.id, userId := uid, type := TxnType.OUT, quantity := qty,
            reason := some reason, reference := ref, notes := notes }

/-- `AdjustmentSerializer` (fields + `validate` + `create`): `quantity` is a
plain signed `IntegerField`; `reason` is a required `CharField` (blank
rejected); `validate` rejects when `batch.quantity + quantity < 0`; `create`
stores `type='ADJUST'`, the constant `reason='adjustment'`, and
`notes=f"{reason}: {notes}"` where `notes` defaults to `''`. -/
def adjustPost (st : St) (uid : Option Nat) (bid : Nat) (qty : Int)
    (reason : String) (notes : Option String) : Except Err St :=
  if reason = "" then Except.error Err.validationError
  else
    match getBatch st bid with
    | none => Except.error Err.doesNotExist
    | some b =>
      if b.quantity + qty < 0 then Except.error Err.validationError
      else
        txnObjectsCreate st
          { batchId := b.id, userId := uid, type := TxnType.ADJUST, quantity := qty,
            reason := some "adjustment",
            notes := some (reason ++ ": " ++ notes.getD "") }

/-- `BatchCreateSerializer.create` (src/apps/inventory/serializers.py lines
42-114): after resolving product and location it opens
`transaction.atomic()`, creates the batch row with `quantity` already set to
the initial quantity, then builds the informational `IN` entry
(`reason='purchase'`, `notes='Initial stock'`) and calls
`txn.save(skip_quantity_update=True)`.  A `TypeError` from that call aborts
the atomic block, rolling the batch row back. -/
def batchCreatePost (st : St) (uid : Option Nat) (pid locId : Nat)
    (batchNumber : Option String) (qty : Int) (cost sell : Int)
    (expiry mfg : Option Nat) (newBatchId now : Nat) : Except Err St :=
  match getProduct st pid with
  | none => Except.error Err.validationError
  | some _ =>
    let batch : Batch :=
      { id := newBatchId, productId := pid, locationId := locId,
        batchNumber := batchNumber, expiryDate := expiry, manufactureDate := mfg,
        quantity := qty, costPrice := cost, sellPrice := sell, createdAt := now }
    let st1 : St := { st with batches := st.batches ++ [batch] }
    let t : Txn :=
      { batchId := newBatchId, userId := uid, type := TxnType.IN, quantity := qty,
        reason := some "purchase", notes := some "Initial stock" }
    match txnModelSave st1 t ["skip_quantity_update"] with
    | Except.ok st2 => Except.ok st2
    | Except.error e => Except.error e

/-- `QuickInSerializer` (fields + `validate_product_id` + `create`):
`quantity` has `min_value=1`; inside `transaction.atomic()` the batch row is
created with the quantity already set, then the informational `IN` entry
(`reason='purchase'`, `reference` defaulting to `''`, `notes` defaulting to
`'Quick stock in'`) is saved with `skip_quantity_update=True`; a `TypeError`
there aborts the atomic block. -/
def quickInPost (st : St) (uid : Option Nat) (pid locId : Nat)
    (batchNumber : String) (qty : Int) (cost sell : Int)
    (expiry mfg : Option Nat) (ref notes : Option String)
    (newBatchId now : Nat) : Except Err St :=
  if qty < 1 then Except.error Err.validationError
  else
    match getProduct st pid with
    | none => Except.error Err.validationError
    | some _ =>
      let batch : Batch :=
        { id := newBatchId, productId := pid, locationId := locId,
          batchNumber := some batchNumber, expiryDate := expiry,
          manufactureDate := mfg, quantity := qty, costPrice := cost,
          sellPrice := sell, createdAt := now }
      let st1 : St := { st with batches := st.batches ++ [batch] }
      let t : Txn :=
        { batchId := newBatchId, userId := uid, type := TxnType.IN, quantity := qty,
          reason := some "purchase", reference := some (ref.getD ""),
          notes := some (notes.getD "Quick stock in") }
      match txnModelSave st1 t ["skip_quantity_update"] with
      | Except.ok st2 => Except.ok st2
      | Except.error e => Except.error e

/-- Modelled from the spec: relative order of `NULL` keys under
`order_by('expiry_date')` is decided by the configured database backend, and
the settings module of this repository is not under `src/`; the spec fixes
the intended placement — "batches with no expiry date sort after all dated
batches". -/
def expiryLE : Option Nat → Option Nat → Bool
  | _, none => true
  | none, some _ => false
  | some a, some b => a ≤ b

/-- Candidate rows of the quick-out query:
`Batch.objects.filter(product=product, quantity__gt=0)`. -/
def fefoCandidates (st : St) (pid : Nat) : List Batch :=
  st.batches.filter fun b => decide (b.productId = pid ∧ 0 < b.quantity)

/-- One possible result sequence of the quick-out query
`.order_by('expiry_date')`: a permutation of the candidate rows that is
weakly sorted by expiry (nulls per `expiryLE`).  The explicit `order_by`
replaces the model's `Meta.ordering`, so no `created_at` key is in the SQL
`ORDER BY` and the relative order of equal expiry keys is left to the
database. -/
def isFefoOrder (st : St) (pid : Nat) (l : List Batch) : Prop :=
  l.Perm (fefoCandidates st pid) ∧
    l.Pairwise fun a b => expiryLE a.expiryDate b.expiryDate = true

instance (st : St) (pid : Nat) (l : List Batch) : Decidable (isFefoOrder st pid l) :=
  inferInstanceAs (Decidable (And _ _))

/-- The `OUT` entry one quick-out loop iteration creates:
`InventoryTransaction.objects.create(batch=batch, type='OUT',
quantity=deduct_qty, reason=..., reference=validated_data.get('reference',''),
notes=validated_data.get('notes', 'Quick stock out'))`. -/
def outTxn (uid : Option Nat) (reason : String) (ref notes : Option String)
    (bid : Nat) (deduct : Int) : Txn :=
  { batchId := bid, userId := uid, type := TxnType.OUT, quantity := deduct,
    reason := some reason, reference := some (ref.getD ""),
    notes := some (notes.getD "Quick stock out") }

/-- The greedy loop of `QuickOutSerializer.create`: walk the fetched batch
rows in order; stop when nothing remains to deduct; otherwise deduct
`min(batch.quantity, remaining)` from the current row by creating an `OUT`
entry (committed through `InventoryTransaction.objects.create`, always the
`Except.ok` branch — see `txnObjectsCreate_eq`).  `batch.quantity` here is
the value of the row as fetched by the query, exactly as in the Python loop.
Returns the store, the created entries in creation order, and the final
`remaining`. -/
def quickOutLoop (uid : Option Nat) (reason : String) (ref notes : Option String) :
    St → List Batch → Int → St × List Txn × Int
  | st, [], remaining => (st, [], remaining)
  | st, b :: rest, remaining =>
    if remaining ≤ 0 then (st, [], remaining)
    else
      let deduct := min b.quantity remaining
      let t : Txn := outTxn uid reason ref notes b.id deduct
      let res := quickOutLoop uid reason ref notes (applyEntry st t) rest (remaining - deduct)
      (res.1, t :: res.2.1, res.2.2)

/-- `QuickOutSerializer` (fields + `validate` + `create`): `quantity` has
`min_value=1`, `reason` is a `ChoiceField`; `validate` resolves the product
and rejects with "Insufficient stock" when `product.total_stock <
quantity` (before any write); `create` runs the greedy FEFO loop over the
query result `l` inside one `transaction.atomic()`.  The endpoint reports
`total_deducted = quantity_to_deduct` and `batches_affected =
len(transactions)`; the tuple returned here carries the store, the entries,
and the loop's final `remaining`. -/
def quickOutPost (st : St) (uid : Option Nat) (pid : Nat) (qty : Int)
    (reason : String) (ref notes : Option String) (l : List Batch) :
    Except Err (St × List Txn × Int) :=
  if qty < 1 then Except.error Err.validationError
  else if reasonChoices.contains reason = false then Except.error Err.validationError
  else
    match getProduct st pid with
    | none => Except.error Err.validationError
    | some _ =>
      if total_stock st pid < qty then Except.error Err.validationError
      else Except.ok (quickOutLoop uid reason ref notes st l qty)

/-- One request against the API: the arguments of the six mutating
endpoints.  A `quickOut` request carries the row order `l` the database
returned for its query. -/
inductive Op where
  | inward (uid : Option Nat) (bid : Nat) (qty : Int) (ref notes : Option String)
  | outward (uid : Option Nat) (bid : Nat) (qty : Int) (reason : String)
      (ref notes : Option String)
  | adjust (uid : Option Nat) (bid : Nat) (qty : Int) (reason : String)
      (notes : Option String)
  | batchCreate (uid : Option Nat) (pid locId : Nat) (batchNumber : Option String)
      (qty : Int) (cost sell : Int) (expiry mfg : Option Nat) (newBatchId now : Nat)
  | quickIn (uid : Option Nat) (pid locId : Nat) (batchNumber : String)
      (qty : Int) (cost sell : Int) (expiry mfg : Option Nat)
      (ref notes : Option String) (newBatchId now : Nat)
  | quickOut (uid : Option Nat) (pid : Nat) (qty : Int) (reason : String)
      (ref notes : Option String) (l : List Batch)

/-- A rejected request leaves the store untouched: serializer validation runs
before any write, and the writes of one request sit in a single
`transaction.atomic()` block that rolls back on an exception. -/
def commit (st : St) : Except Err St → St
  | Except.ok st' => st'
  | Except.error _ => st

/-- Effect of one request on the store.  A `quickOut` whose recorded row
order is not a possible result of its query corresponds to no execution and
is a no-op. -/
def step (st : St) : Op → St
  | Op.inward uid bid qty ref notes => commit st (inwardPost st uid bid qty ref notes)
  | Op.outward uid bid qty reason ref notes =>
      commit st (outwardPost st uid bid qty reason ref notes)
  | Op.adjust uid bid qty reason notes => commit st (adjustPost st uid bid qty reason notes)
  | Op.batchCreate uid pid locId bn qty cost sell expiry mfg nb now =>
      commit st (batchCreatePost st uid pid locId bn qty cost sell expiry mfg nb now)
  | Op.quickIn uid pid locId bn qty cost sell expiry mfg ref notes nb now =>
      commit st (quickInPost st uid pid locId bn qty cost sell expiry mfg ref notes nb now)
  | Op.quickOut uid pid qty reason ref notes l =>
      if isFefoOrder st pid l then
        commit st ((quickOutPost st uid pid qty reason ref notes l).map fun r => r.1)
      else st

/-- Stores reachable from `init` by a sequence of requests. -/
inductive Reachable (init : St) : St → Prop where
  | refl : Reachable init init
  | tail {st : St} (op : Op) : Reachable init st → Reachable init (step st op)

/-- Ledger entries referencing one batch. -/
def entriesFor (ledger : List Txn) (bid : Nat) : List Txn :=
  ledger.filter fun t => t.batchId = bid

/-- Net signed effect of a batch's ledger entries. -/
def ledgerSum (ledger : List Txn) (bid : Nat) : Int :=
  ((entriesFor ledger bid).map signedDelta).sum

/-- The batch-row update performed by a committed ledger entry. -/
def updQ (t : Txn) (b : Batch) : Batch :=
  if b.id = t.batchId then { b with quantity := b.quantity + signedDelta t } else b

/-- Net quantity of one batch snapshot list. -/
def sumQ (l : List Batch) : Int :=
  (l.map fun b => b.quantity).sum

/-- The C5 invariant relating a store to the initial store it evolved from:
every batch row carries its initial quantity plus the net signed effect of
the ledger entries referencing it. -/
def BatchLedgerInv (init st : St) : Prop :=
  ∀ b ∈ st.batches, ∃ b0 ∈ init.batches, b0.id = b.id ∧
    b.quantity = b0.quantity + ledgerSum st.ledger b.id

/-- Store with one product and no stock, for exercising batch creation. -/
def stC1 : St := { products := [{ id := 1 }] }

/-- Store with one product and one batch of quantity 3. -/
def stC4 : St :=
  { products := [{ id := 1 }],
    batches := [{ id := 1, productId := 1, locationId := 1, quantity := 3 }] }

/-- Batch expiring 2024-05-01 with 10 units, created first. -/
def bC3a : Batch :=
  { id := 1, productId := 1, locationId := 1, expiryDate := some 20240501,
    quantity := 10, createdAt := 1 }

/-- Batch expiring 2024-03-01 with 5 units, created second. -/
def bC3b : Batch :=
  { id := 2, productId := 1, locationId := 1, expiryDate := some 20240301,
    quantity := 5, createdAt := 2 }

/-- Batch with no expiry and 20 units, created third. -/
def bC3c : Batch :=
  { id := 3, productId := 1, locationId := 1, expiryDate := none,
    quantity := 20, createdAt := 3 }

/-- The FEFO example store of the spec: batches
`[2024-05-01: 10, 2024-03-01: 5, null: 20]` of one product. -/
def stC3 : St := { products := [{ id := 1 }], batches := [bC3a, bC3b, bC3c] }

/-- Earlier-created of two equal-expiry batches (created at 10). -/
def bC7a : Batch :=
  { id := 1, productId := 2, locationId := 1, expiryDate := some 20240601,
    quantity := 5, createdAt := 10 }

/-- Later-created of two equal-expiry batches (created at 20). -/
def bC7b : Batch :=
  { id := 2, productId := 2, locationId := 1, expiryDate := some 20240601,
    quantity := 5, createdAt := 20 }

/-- Store with two batches sharing one expiry date. -/
def stC7 : St := { products := [{ id := 2 }], batches := [bC7a, bC7b] }

/-- Dated batch with 4 units for the exhaustion example. -/
def bC6a : Batch :=
  { id := 1, productId := 1, locationId := 1, expiryDate := some 5,
    quantity := 4, createdAt := 1 }

/-- Undated batch with 6 units for the exhaustion example. -/
def bC6b : Batch :=
  { id := 2, productId := 1, locationId := 1, expiryDate := none,
    quantity := 6, createdAt := 2 }

/-- Store holding 10 units across two batches of one product. -/
def stC6 : St := { products := [{ id := 1 }], batches := [bC6a, bC6b] }

/-- Store with one product and one batch of quantity 5. -/
def stC10 : St :=
  { products := [{ id := 1 }],
    batches := [{ id := 1, productId := 1, locationId := 1, quantity := 5 }] }

lemma txnObjectsCreate_eq (st : St) (t : Txn) :
    txnObjectsCreate st t = Except.ok (applyEntry st t) := rfl

lemma applyEntry_batches (st : St) (t : Txn) :
    (applyEntry st t).batches = st.batches.map (updQ t) := rfl

lemma applyEntry_ledger (st : St) (t : Txn) :
    (applyEntry st t).ledger = st.ledger ++ [t] := rfl

lemma updQ_id (t : Txn) (b : Batch) : (updQ t b).id = b.id := by
  unfold updQ
  split <;> rfl

lemma updQ_productId (t : Txn) (b : Batch) : (updQ t b).productId = b.productId := by
  unfold updQ
  split <;> rfl

lemma entriesFor_append (L : List Txn) (t : Txn) (bid : Nat) :
    entriesFor (L ++ [t]) bid
      = entriesFor L bid ++ (if t.batchId = bid then [t] else []) := by
  unfold entriesFor
  rw [List.filter_append]
  by_cases h : t.batchId = bid <;> simp [h]

lemma ledgerSum_append (L : List Txn) (t : Txn) (bid : Nat) :
    ledgerSum (L ++ [t]) bid
      = ledgerSum L bid + (if t.batchId = bid then signedDelta t else 0) := by
  unfold ledgerSum
  rw [entriesFor_append]
  by_cases h : t.batchId = bid <;> simp [h]

lemma find?_map_updQ (t : Txn) (bid : Nat) (l : List Batch) :
    ((l.map (updQ t)).find? fun b => b.id = bid)
      = (l.find? fun b => b.id = bid).map (updQ t) := by
  induction l with
  | nil => rfl
  | cons hd tl ih =>
    by_cases hhd : hd.id = bid
    · simp [List.find?_cons, updQ_id, hhd]
    · simp [List.find?_cons, updQ_id, hhd, ih]

lemma getBatch_applyEntry (st : St) (t : Txn) (bid : Nat) :
    getBatch (applyEntry st t) bid = (getBatch st bid).map (updQ t) := by
  unfold getBatch
  rw [applyEntry_batches, find?_map_updQ]

lemma applyEntry_ids (st : St) (t : Txn) :
    ((applyEntry st t).batches.map fun b => b.id) = st.batches.map fun b => b.id := by
  rw [applyEntry_batches, List.map_map]
  exact List.map_congr_left fun b _ => updQ_id t b

lemma find?_id_of_mem {l : List Batch} {b : Batch}
    (hnodup : (l.map fun x => x.id).Nodup) (hb : b ∈ l) :
    (l.find? fun x => x.id = b.id) = some b := by
  induction l with
  | nil => cases hb
  | cons hd tl ih =>
    rcases List.mem_cons.1 hb with rfl | htl
    · simp [List.find?_cons]
    · by_cases hhd : hd.id = b.id
      · exfalso
        have hmem : b.id ∈ tl.map fun x => x.id :=
          List.mem_map_of_mem (fun x => x.id) htl
        rw [← hhd] at hmem
        have hnodup' : (hd.id :: tl.map fun x => x.id).Nodup := by
          simpa using hnodup
        exact (List.nodup_cons.1 hnodup').1 hmem
      · simpa [List.find?_cons, hhd] using
          ih (by simpa using (List.nodup_cons.1 (by simpa using hnodup :
            (hd.id :: tl.map fun x => x.id).Nodup)).2) htl

lemma getBatch_of_mem {st : St} {b : Batch}
    (hnodup : (st.batches.map fun x => x.id).Nodup) (hb : b ∈ st.batches) :
    getBatch st b.id = some b :=
  find?_id_of_mem hnodup hb

lemma txnModelSave_skip (st : St) (t : Txn) :
    txnModelSave st t ["skip_quantity_update"] = Except.error Err.typeError := by
  have h : (["skip_quantity_update"].all fun k => djangoSaveKwargs.contains k) = false := by
    decide
  unfold txnModelSave
  rw [h]
  rfl

lemma batchCreatePost_not_ok (st : St) (uid : Option Nat) (pid locId : Nat)
    (bn : Option String) (qty cost sell : Int) (expiry mfg : Option Nat)
    (nb now : Nat) :
    ∀ st', batchCreatePost st uid pid locId bn qty cost sell expiry mfg nb now
      ≠ Except.ok st' := by
  intro st'
  unfold batchCreatePost
  cases hgp : getProduct st pid <;> simp [txnModelSave_skip]

lemma quickInPost_not_ok (st : St) (uid : Option Nat) (pid locId : Nat)
    (bn : String) (qty cost sell : Int) (expiry mfg : Option Nat)
    (ref notes : Option String) (nb now : Nat) :
    ∀ st', quickInPost st uid pid locId bn qty cost sell expiry mfg ref notes nb now
      ≠ Except.ok st' := by
  intro st'
  unfold quickInPost
  by_cases hq : qty < 1
  · simp [hq]
  · cases hgp : getProduct st pid <;> simp [hq, hgp, txnModelSave_skip]

lemma total_stock_eq_sum (st : St) (pid : Nat) :
    total_stock st pid = ((productBatches st pid).map fun b => b.quantity).sum := by
  unfold total_stock pyOrZero sqlSum
  cases h : (productBatches st pid).map fun b => b.quantity with
  | nil => simp
  | cons q qs =>
    by_cases hz : (q :: qs).sum = 0
    · simp [hz]
    · simp only [List.sum_cons] at hz ⊢
      rw [if_neg hz]

lemma applyEntry_effect {st : St} {b : Batch} {bid : Nat} (t : Txn)
    (hb : getBatch st bid = some b) (hid : t.batchId = b.id)
    (hnodup : (st.batches.map fun x => x.id).Nodup)
    (hnonneg : ∀ c ∈ st.batches, 0 ≤ c.quantity)
    (hq : 0 ≤ b.quantity + signedDelta t) :
    (applyEntry st t).ledger = st.ledger ++ [t] ∧
    getBatch (applyEntry st t) bid = some { b with quantity := b.quantity + signedDelta t } ∧
    ∀ c ∈ (applyEntry st t).batches, 0 ≤ c.quantity := by
  have hmem : b ∈ st.batches := List.mem_of_find?_eq_some hb
  refine ⟨applyEntry_ledger st t, ?_, ?_⟩
  · rw [getBatch_applyEntry, hb, Option.map_some']
    unfold updQ
    rw [if_pos hid.symm]
  · intro c hc
    rw [applyEntry_batches] at hc
    rcases List.mem_map.1 hc with ⟨c0, hc0, rfl⟩
    unfold updQ
    by_cases hcid : c0.id = t.batchId
    · have hceq : c0 = b :=
        List.inj_on_of_nodup_map hnodup hc0 hmem (by rw [hcid, hid])
      rw [if_pos hcid]
      subst hceq
      exact hq
    · rw [if_neg hcid]
      exact hnonneg c0 hc0

/-- C2: single-batch movements (outward with signed delta `-qty`, adjustment
with signed delta `qty`, of either sign): when `quantity + delta < 0` the
request is rejected with the insufficient-stock `ValidationError` before any
write, leaving the store unchanged; otherwise exactly one ledger entry is
appended and the batch quantity becomes `quantity + delta`.  In both success
cases every batch quantity stays non-negative when all were non-negative
before.  The `1 ≤ qty` and reason-choice premises appear only in the outward
clauses, mirroring the `min_value=1` and `ChoiceField` validators of
`OutwardSerializer`; `AdjustmentSerializer` accepts any signed integer and
any non-blank reason text. -/
theorem single_movement_spec (st : St) (uid : Option Nat) (bid : Nat) (b : Batch)
    (qty : Int) (reason : String) (ref notes : Option String)
    (hb : getBatch st bid = some b)
    (hnodup : (st.batches.map fun x => x.id).Nodup)
    (hnonneg : ∀ c ∈ st.batches, 0 ≤ c.quantity) :
    (reasonChoices.contains reason = true → 1 ≤ qty → b.quantity + (-qty) < 0 →
      outwardPost st uid bid qty reason ref notes = Except.error Err.validationError ∧
      step st (Op.outward uid bid qty reason ref notes) = st) ∧
    (reasonChoices.contains reason = true → 1 ≤ qty → 0 ≤ b.quantity + (-qty) →
      ∃ st', outwardPost st uid bid qty reason ref notes = Except.ok st' ∧
        st'.ledger = st.ledger ++
          [{ batchId := b.id, userId := uid, type := TxnType.OUT, quantity := qty,
             reason := some reason, reference := ref, notes := notes }] ∧
        getBatch st' bid = some { b with quantity := b.quantity + (-qty) } ∧
        ∀ c ∈ st'.batches, 0 ≤ c.quantity) ∧
    (¬ reason = "" → b.quantity + qty < 0 →
      adjustPost st uid bid qty reason notes = Except.error Err.validationError ∧
      step st (Op.adjust uid bid qty reason notes) = st) ∧
    (¬ reason = "" → 0 ≤ b.quantity + qty →
      ∃ st', adjustPost st uid bid qty reason notes = Except.ok st' ∧
        st'.ledger = st.ledger ++
          [{ batchId := b.id, userId := uid, type := TxnType.ADJUST, quantity := qty,
             reason := some "adjustment", reference := none,
             notes := some (reason ++ ": " ++ notes.getD "") }] ∧
        getBatch st' bid = some { b with quantity := b.quantity + qty } ∧
        ∀ c ∈ st'.batches, 0 ≤ c.quantity) := by
  have hout : reasonChoices.contains reason = true → 1 ≤ qty →
      outwardPost st uid bid qty reason ref notes
      = (if b.quantity < qty then Except.error Err.validationError
        else txnObjectsCreate st
          { batchId := b.id, userId := uid, type := TxnType.OUT, quantity := qty,
            reason := some reason, reference := ref, notes := notes }) := by
    intro hreason hqty
    unfold outwardPost
    rw [if_neg (show ¬ qty < 1 by omega), hreason, hb]
    rfl
  refine ⟨?_, ?_, ?_, ?_⟩
  · intro hreason hqty hlt
    have h1 : outwardPost st uid bid qty reason ref notes
        = Except.error Err.validationError := by
      rw [hout hreason hqty, if_pos (by omega)]
    refine ⟨h1, ?_⟩
    show commit st (outwardPost st uid bid qty reason ref notes) = st
    rw [h1]
    rfl
  · intro hreason hqty hge
    have h1 : outwardPost st uid bid qty reason ref notes
        = Except.ok (applyEntry st
          { batchId := b.id, userId := uid, type := TxnType.OUT, quantity := qty,
            reason := some reason, reference := ref, notes := notes }) := by
      rw [hout hreason hqty, if_neg (by omega), txnObjectsCreate_eq]
    have heff := @applyEntry_effect st b bid
      { batchId := b.id, userId := uid, type := TxnType.OUT, quantity := qty,
        reason := some reason, reference := ref, notes := notes }
      hb rfl hnodup hnonneg (by simpa [signedDelta] using hge)
    exact ⟨_, h1, heff.1, by simpa [signedDelta] using heff.2.1, heff.2.2⟩
  · intro hrnz hlt
    have h1 : adjustPost st uid bid qty reason notes
        = Except.error Err.validationError := by
      unfold adjustPost
      rw [if_neg hrnz, hb]
      dsimp only
      rw [if_pos (by omega)]
    refine ⟨h1, ?_⟩
    show commit st (adjustPost st uid bid qty reason notes) = st
    rw [h1]
    rfl
  · intro hrnz hge
    have h1 : adjustPost st uid bid qty reason notes
        = Except.ok (applyEntry st
          { batchId := b.id, userId := uid, type := TxnType.ADJUST, quantity := qty,
            reason := some "adjustment", reference := none,
            notes := some (reason ++ ": " ++ notes.getD "") }) := by
      unfold adjustPost
      rw [if_neg hrnz, hb]
      dsimp only
      rw [if_neg (by omega), txnObjectsCreate_eq]
    have heff := @applyEntry_effect st b bid
      { batchId := b.id, userId := uid, type := TxnType.ADJUST, quantity := qty,
        reason := some "adjustment", reference := none,
        notes := some (reason ++ ": " ++ notes.getD "") }
      hb rfl hnodup hnonneg (by simpa [signedDelta] using hge)
    exact ⟨_, h1, heff.1, by simpa [signedDelta] using heff.2.1, heff.2.2⟩

/-- Witness for C2: on a store with one batch of quantity 5, requesting 7
out is rejected with no state change and requesting 2 out succeeds with one
`OUT` entry and quantity 3; an adjustment of −7 is rejected with no state
change and an adjustment of −2 succeeds with one `ADJUST` entry and
quantity 3. -/
theorem single_movement_spec_witness :
    (outwardPost stC10 none 1 7 "sale" none none = Except.error Err.validationError ∧
      step stC10 (Op.outward none 1 7 "sale" none none) = stC10) ∧
    (∃ st', outwardPost stC10 none 1 2 "sale" none none = Except.ok st' ∧
      st'.ledger = stC10.ledger ++
        [{ batchId := 1, userId := none, type := TxnType.OUT, quantity := 2,
           reason := some "sale", reference := none, notes := none }] ∧
      getBatch st' 1 = some { id := 1, productId := 1, locationId := 1, quantity := 3 } ∧
      ∀ c ∈ st'.batches, 0 ≤ c.quantity) ∧
    (adjustPost stC10 none 1 (-7) "damage" none = Except.error Err.validationError ∧
      step stC10 (Op.adjust none 1 (-7) "damage" none) = stC10) ∧
    (∃ st', adjustPost stC10 none 1 (-2) "damage" none = Except.ok st' ∧
      st'.ledger = stC10.ledger ++
        [{ batchId := 1, userId := none, type := TxnType.ADJUST, quantity := -2,
           reason := some "adjustment", reference := none,
           notes := some ("damage" ++ ": " ++ "") }] ∧
      getBatch st' 1 = some { id := 1, productId := 1, locationId := 1, quantity := 3 } ∧
      ∀ c ∈ st'.batches, 0 ≤ c.quantity) := by
  refine ⟨?_, ?_, ?_, ?_⟩
  · exact (single_movement_spec stC10 none 1
      { id := 1, productId := 1, locationId := 1, quantity := 5 } 7 "sale" none none
      rfl (by decide) (by decide)).1 (by decide) (by decide) (by decide)
  · exact (single_movement_spec stC10 none 1
      { id := 1, productId := 1, locationId := 1, quantity := 5 } 2 "sale" none none
      rfl (by decide) (by decide)).2.1 (by decide) (by decide) (by decide)
  · exact (single_movement_spec stC10 none 1
      { id := 1, productId := 1, locationId := 1, quantity := 5 } (-7) "damage" none none
      rfl (by decide) (by decide)).2.2.1 (by decide) (by decide)
  · exact (single_movement_spec stC10 none 1
      { id := 1, productId := 1, locationId := 1, quantity := 5 } (-2) "damage" none none
      rfl (by decide) (by decide)).2.2.2 (by decide) (by decide)

/-- C1: creating a batch with `initialQuantity > 0` — here 5, via both
`createBatch` and quick-in — is supposed to set the quantity at creation,
append a record-only `IN` entry, and leave `batch.quantity = 5`.  The code
instead passes the unknown keyword `skip_quantity_update` to
`django.db.models.Model.save`, which raises `TypeError`; the atomic block
rolls back, so the whole creation aborts: the request errors out and the
store is left without the batch and without the ledger entry (and the `save`
override never consults the flag, so even a tolerated keyword would have
applied the `IN` delta a second time). -/
theorem create_batch_initial_entry_aborts :
    batchCreatePost stC1 none 1 1 (some "B1") 5 10 20 none none 7 0
        = Except.error Err.typeError ∧
    quickInPost stC1 none 1 1 "B1" 5 10 20 none none none none 7 0
        = Except.error Err.typeError ∧
    step stC1 (Op.batchCreate none 1 1 (some "B1") 5 10 20 none none 7 0) = stC1 ∧
    step stC1 (Op.quickIn none 1 1 "B1" 5 10 20 none none none none 7 0) = stC1 := by
  exact ⟨rfl, rfl, rfl, rfl⟩

/-- C8: `total_stock` is the sum of `quantity` over the product's batches
(the `SUM`-is-`NULL`-on-no-rows / `or 0` plumbing collapses to the plain
sum), and `is_low_stock` holds exactly when `total_stock ≤ min_stock`.  Both
are functions of the store alone and return no modified state, so they
mutate nothing and repeated calls with no intervening writes agree. -/
theorem stock_aggregates (st : St) (p : Product) (pid : Nat) :
    total_stock st pid
        = ((st.batches.filter fun b => b.productId = pid).map fun b => b.quantity).sum ∧
    (is_low_stock st p = true ↔ total_stock st p.id ≤ p.min_stock) := by
  refine ⟨total_stock_eq_sum st pid, ?_⟩
  simp [is_low_stock]

/-- C10: every successful adjustment appends exactly one entry of type
`ADJUST` whose stored `reason` is the constant string "adjustment" whatever
reason the caller supplied; the caller's reason text lands only in `notes`,
concatenated as `"<reason>: <notes>"`. -/
theorem adjustment_stores_constant_reason (st : St) (uid : Option Nat) (bid : Nat)
    (b : Batch) (qty : Int) (reason : String) (notes : Option String)
    (hb : getBatch st bid = some b) (hr : ¬ reason = "") (hq : 0 ≤ b.quantity + qty) :
    ∃ st', adjustPost st uid bid qty reason notes = Except.ok st' ∧
      st'.ledger = st.ledger ++
        [{ batchId := b.id, userId := uid, type := TxnType.ADJUST, quantity := qty,
           reason := some "adjustment", reference := none,
           notes := some (reason ++ ": " ++ notes.getD "") }] := by
  unfold adjustPost
  rw [if_neg hr, hb]
  dsimp only
  rw [if_neg (by omega), txnObjectsCreate_eq]
  exact ⟨_, rfl, applyEntry_ledger st _⟩

/-- Witness for C10 at a concrete store: adjusting batch 1 by −2 with caller
reason "damage" stores reason "adjustment" and notes "damage: broken". -/
theorem adjustment_stores_constant_reason_witness :
    ∃ st', adjustPost stC10 none 1 (-2) "damage" (some "broken") = Except.ok st' ∧
      st'.ledger = stC10.ledger ++
        [{ batchId := 1, userId := none, type := TxnType.ADJUST, quantity := -2,
           reason := some "adjustment", reference := none,
           notes := some ("damage" ++ ": " ++ "broken") }] :=
  adjustment_stores_constant_reason stC10 none 1
    { id := 1, productId := 1, locationId := 1, quantity := 5 } (-2) "damage"
    (some "broken") rfl (by decide) (by decide)

/-- C4: a quick-out request for more than the sum of the product's batch
quantities is rejected with the insufficient-stock `ValidationError` and the
store is left untouched (no batch changed, no ledger entry written); a
request within the total proceeds to the allocation loop. -/
theorem overrequest_rejected (st : St) (uid : Option Nat) (pid : Nat) (p : Product)
    (qty : Int) (reason : String) (ref notes : Option String) (l : List Batch)
    (hp : getProduct st pid = some p) (hqty : 1 ≤ qty)
    (hreason : reasonChoices.contains reason = true) :
    (total_stock st pid < qty →
      quickOutPost st uid pid qty reason ref notes l = Except.error Err.validationError ∧
      step st (Op.quickOut uid pid qty reason ref notes l) = st) ∧
    (qty ≤ total_stock st pid →
      ∃ r, quickOutPost st uid pid qty reason ref notes l = Except.ok r) := by
  have hpost : quickOutPost st uid pid qty reason ref notes l
      = (if total_stock st pid < qty then Except.error Err.validationError
        else Except.ok (quickOutLoop uid reason ref notes st l qty)) := by
    unfold quickOutPost
    rw [if_neg (show ¬ qty < 1 by omega), hreason, hp]
    rfl
  constructor
  · intro hover
    have h1 : quickOutPost st uid pid qty reason ref notes l
        = Except.error Err.validationError := by
      rw [hpost, if_pos hover]
    refine ⟨h1, ?_⟩
    show (if isFefoOrder st pid l then
        commit st ((quickOutPost st uid pid qty reason ref notes l).map fun r => r.1)
      else st) = st
    by_cases hf : isFefoOrder st pid l
    · rw [if_pos hf, h1]
      rfl
    · rw [if_neg hf]
  · intro hsuff
    exact ⟨_, by rw [hpost, if_neg (by omega)]⟩

lemma quickOutLoop_nil (uid : Option Nat) (reason : String) (ref notes : Option String)
    (st : St) (rem : Int) :
    quickOutLoop uid reason ref notes st [] rem = (st, [], rem) := rfl

lemma quickOutLoop_cons (uid : Option Nat) (reason : String) (ref notes : Option String)
    (st : St) (b : Batch) (rest : List Batch) (rem : Int) (h : ¬ rem ≤ 0) :
    quickOutLoop uid reason ref notes st (b :: rest) rem
      = ((quickOutLoop uid reason ref notes
            (applyEntry st (outTxn uid reason ref notes b.id (min b.quantity rem)))
            rest (rem - min b.quantity rem)).1,
         outTxn uid reason ref notes b.id (min b.quantity rem)
           :: (quickOutLoop uid reason ref notes
            (applyEntry st (outTxn uid reason ref notes b.id (min b.quantity rem)))
            rest (rem - min b.quantity rem)).2.1,
         (quickOutLoop uid reason ref notes
            (applyEntry st (outTxn uid reason ref notes b.id (min b.quantity rem)))
            rest (rem - min b.quantity rem)).2.2) := by
  rw [quickOutLoop, if_neg h]

lemma inv_applyEntry {init st : St} (t : Txn) (h : BatchLedgerInv init st) :
    BatchLedgerInv init (applyEntry st t) := by
  intro b hb
  rw [applyEntry_batches] at hb
  rcases List.mem_map.1 hb with ⟨c, hc, rfl⟩
  rcases h c hc with ⟨b0, hb0, hid, hq⟩
  refine ⟨b0, hb0, ?_, ?_⟩
  · rw [hid, updQ_id]
  · rw [applyEntry_ledger, updQ_id, ledgerSum_append]
    unfold updQ
    by_cases hcid : c.id = t.batchId
    · rw [if_pos hcid, if_pos hcid.symm]
      dsimp only
      omega
    · rw [if_neg hcid, if_neg fun hh => hcid hh.symm]
      omega

lemma quickOutLoop_inv {init : St} (uid : Option Nat) (reason : String)
    (ref notes : Option String) :
    ∀ (l : List Batch) (st : St) (rem : Int), BatchLedgerInv init st →
      BatchLedgerInv init (quickOutLoop uid reason ref notes st l rem).1 := by
  intro l
  induction l with
  | nil => intro st rem h; exact h
  | cons b rest ih =>
    intro st rem h
    by_cases hrem : rem ≤ 0
    · rw [quickOutLoop, if_pos hrem]
      exact h
    · rw [quickOutLoop_cons uid reason ref notes st b rest rem hrem]
      exact ih _ _ (inv_applyEntry _ h)

lemma inv_commit {init st : St} (e : Except Err St)
    (he : ∀ st', e = Except.ok st' → BatchLedgerInv init st')
    (h : BatchLedgerInv init st) : BatchLedgerInv init (commit st e) := by
  cases e with
  | ok st' => exact he st' rfl
  | error _ => exact h

lemma inwardPost_ok {st st' : St} {uid : Option Nat} {bid : Nat} {qty : Int}
    {ref notes : Option String}
    (h : inwardPost st uid bid qty ref notes = Except.ok st') :
    ∃ t, st' = applyEntry st t := by
  unfold inwardPost at h
  split at h
  · exact Except.noConfusion h
  · split at h
    · exact Except.noConfusion h
    · rw [txnObjectsCreate_eq] at h
      cases h
      exact ⟨_, rfl⟩

lemma outwardPost_ok {st st' : St} {uid : Option Nat} {bid : Nat} {qty : Int}
    {reason : String} {ref notes : Option String}
    (h : outwardPost st uid bid qty reason ref notes = Except.ok st') :
    ∃ t, st' = applyEntry st t := by
  unfold outwardPost at h
  split at h
  · exact Except.noConfusion h
  · split at h
    · exact Except.noConfusion h
    · split at h
      · exact Except.noConfusion h
      · split at h
        · exact Except.noConfusion h
        · rw [txnObjectsCreate_eq] at h
          cases h
          exact ⟨_, rfl⟩

lemma adjustPost_ok {st st' : St} {uid : Option Nat} {bid : Nat} {qty : Int}
    {reason : String} {notes : Option String}
    (h : adjustPost st uid bid qty reason notes = Except.ok st') :
    ∃ t, st' = applyEntry st t := by
  unfold adjustPost at h
  split at h
  · exact Except.noConfusion h
  · split at h
    · exact Except.noConfusion h
    · split at h
      · exact Except.noConfusion h
      · rw [txnObjectsCreate_eq] at h
        cases h
        exact ⟨_, rfl⟩

lemma inv_step {init st : St} (op : Op) (h : BatchLedgerInv init st) :
    BatchLedgerInv init (step st op) := by
  cases op with
  | inward uid bid qty ref notes =>
    refine inv_commit _ (fun st2 he => ?_) h
    rcases inwardPost_ok he with ⟨t, rfl⟩
    exact inv_applyEntry t h
  | outward uid bid qty reason ref notes =>
    refine inv_commit _ (fun st2 he => ?_) h
    rcases outwardPost_ok he with ⟨t, rfl⟩
    exact inv_applyEntry t h
  | adjust uid bid qty reason notes =>
    refine inv_commit _ (fun st2 he => ?_) h
    rcases adjustPost_ok he with ⟨t, rfl⟩
    exact inv_applyEntry t h
  | batchCreate uid pid locId bn qty cost sell expiry mfg nb now =>
    refine inv_commit _ (fun st2 he => ?_) h
    exact absurd he (batchCreatePost_not_ok st uid pid locId bn qty cost sell expiry mfg nb now st2)
  | quickIn uid pid locId bn qty cost sell expiry mfg ref notes nb now =>
    refine inv_commit _ (fun st2 he => ?_) h
    exact absurd he (quickInPost_not_ok st uid pid locId bn qty cost sell expiry mfg ref notes nb now st2)
  | quickOut uid pid qty reason ref notes l =>
    show BatchLedgerInv init
      (if isFefoOrder st pid l then
        commit st ((quickOutPost st uid pid qty reason ref notes l).map fun r => r.1)
      else st)
    by_cases hf : isFefoOrder st pid l
    · rw [if_pos hf]
      refine inv_commit _ (fun st2 he => ?_) h
      unfold quickOutPost at he
      split at he
      · exact Except.noConfusion he
      · split at he
        · exact Except.noConfusion he
        · split at he
          · exact Except.noConfusion he
          · split at he
            · exact Except.noConfusion he
            · simp only [Except.map] at he
              cases he
              exact quickOutLoop_inv uid reason ref notes l st qty h
    · rw [if_neg hf]
      exact h

/-- C5: after any sequence of requests starting from a store whose ledger is
empty, every batch's quantity equals its initial quantity plus the sum of
signed deltas (`+quantity` for `IN`, `-quantity` for `OUT`, `quantity` as-is
for `ADJUST`) of the ledger entries referencing it.  (The schema stores no
"informational" flag; the record-only save path always aborts, so every
committed entry is a non-informational one and the sum ranges over all
entries of the batch.) -/
theorem batch_quantity_equals_initial_plus_ledger (init st : St)
    (hinit : init.ledger = []) (hreach : Reachable init st) :
    ∀ b ∈ st.batches, ∃ b0 ∈ init.batches, b0.id = b.id ∧
      b.quantity = b0.quantity + ledgerSum st.ledger b.id := by
  induction hreach with
  | refl =>
    intro b hb
    refine ⟨b, hb, rfl, ?_⟩
    rw [hinit]
    simp [ledgerSum, entriesFor]
  | tail op _ ih => exact inv_step op ih

/-- Witness for C5: from a store with one batch of quantity 5 and an empty
ledger, one inward of 2 leads to quantity 7 = 5 + ledger sum. -/
theorem batch_quantity_equals_initial_plus_ledger_witness :
    ∃ b0 ∈ stC10.batches, b0.id = 1 ∧
      (7 : Int) = b0.quantity
        + ledgerSum (step stC10 (Op.inward none 1 2 none none)).ledger 1 := by
  have h := batch_quantity_equals_initial_plus_ledger stC10
    (step stC10 (Op.inward none 1 2 none none)) rfl
    (Reachable.tail (Op.inward none 1 2 none none) Reachable.refl)
  exact h { id := 1, productId := 1, locationId := 1, quantity := 7 } (by decide)

lemma updQ_ne (t : Txn) (b : Batch) (h : ¬ b.id = t.batchId) : updQ t b = b := by
  unfold updQ
  rw [if_neg h]

lemma updQ_eq (t : Txn) (b : Batch) (h : b.id = t.batchId) :
    updQ t b = { b with quantity := b.quantity + signedDelta t } := by
  unfold updQ
  rw [if_pos h]

lemma sumQ_nonneg {l : List Batch} (h : ∀ b ∈ l, 0 < b.quantity) : 0 ≤ sumQ l := by
  unfold sumQ
  apply List.sum_nonneg
  intro x hx
  rcases List.mem_map.1 hx with ⟨b, hb, rfl⟩
  exact le_of_lt (h b hb)

lemma quickOutLoop_drain (uid : Option Nat) (reason : String) (ref notes : Option String) :
    ∀ (l : List Batch) (st : St),
      (∀ b ∈ l, 0 < b.quantity) →
      (∀ b ∈ l, getBatch st b.id = some b) →
      ((l.map fun x => x.id).Nodup) →
      (quickOutLoop uid reason ref notes st l (sumQ l)).2.2 = 0 ∧
      (∀ b ∈ l, getBatch (quickOutLoop uid reason ref notes st l (sumQ l)).1 b.id
          = some { b with quantity := 0 }) ∧
      ∀ bid : Nat, (∀ b ∈ l, ¬ b.id = bid) →
        getBatch (quickOutLoop uid reason ref notes st l (sumQ l)).1 bid = getBatch st bid := by
  intro l
  induction l with
  | nil =>
    intro st _ _ _
    exact ⟨rfl, fun b hb => absurd hb (List.not_mem_nil b), fun bid _ => rfl⟩
  | cons b rest ih =>
    intro st hpos hsnap hnodup
    have hbpos : 0 < b.quantity := hpos b (List.mem_cons_self b rest)
    have hrestpos : ∀ c ∈ rest, 0 < c.quantity :=
      fun c hc => hpos c (List.mem_cons_of_mem b hc)
    have hrest0 : 0 ≤ sumQ rest := sumQ_nonneg hrestpos
    have hsum : sumQ (b :: rest) = b.quantity + sumQ rest := by
      simp [sumQ]
    have hng : ¬ sumQ (b :: rest) ≤ 0 := by omega
    have hmin : min b.quantity (sumQ (b :: rest)) = b.quantity := by
      rw [hsum]
      exact min_eq_left (by omega)
    have hnodup' : (b.id :: rest.map fun x => x.id).Nodup := by simpa using hnodup
    have hbid_not : b.id ∉ rest.map fun x => x.id := (List.nodup_cons.1 hnodup').1
    have hnodup_rest : (rest.map fun x => x.id).Nodup := (List.nodup_cons.1 hnodup').2
    have hne : ∀ c ∈ rest, ¬ c.id = b.id := by
      intro c hc hceq
      exact hbid_not (hceq ▸ List.mem_map_of_mem (fun x => x.id) hc)
    rw [quickOutLoop_cons uid reason ref notes st b rest (sumQ (b :: rest)) hng, hmin,
      show sumQ (b :: rest) - b.quantity = sumQ rest by omega]
    have hsnap1 : ∀ c ∈ rest,
        getBatch (applyEntry st (outTxn uid reason ref notes b.id b.quantity)) c.id
          = some c := by
      intro c hc
      rw [getBatch_applyEntry, hsnap c (List.mem_cons_of_mem b hc), Option.map_some',
        updQ_ne _ c (hne c hc)]
    obtain ⟨ihrem, ihall, ihunch⟩ :=
      ih (applyEntry st (outTxn uid reason ref notes b.id b.quantity))
        hrestpos hsnap1 hnodup_rest
    refine ⟨ihrem, ?_, ?_⟩
    · intro c hc
      rcases List.mem_cons.1 hc with rfl | hcr
      · rw [ihunch c.id hne, getBatch_applyEntry, hsnap c (List.mem_cons_self c rest),
          Option.map_some', updQ_eq _ c rfl,
          show c.quantity + signedDelta (outTxn uid reason ref notes c.id c.quantity) = 0
            from by show c.quantity + -c.quantity = 0; omega]
      · exact ihall c hcr
    · intro bid hbid
      rw [ihunch bid fun c hc => hbid c (List.mem_cons_of_mem b hc), getBatch_applyEntry]
      cases hg : getBatch st bid with
      | none => rfl
      | some r =>
        rw [Option.map_some']
        have hrid : r.id = bid := by
          have := List.find?_some hg
          exact of_decide_eq_true this
        rw [updQ_ne _ r]
        intro hcon
        exact hbid b (List.mem_cons_self b rest) (by rw [← hrid]; exact hcon.symm)

lemma quickOutLoop_ids (uid : Option Nat) (reason : String) (ref notes : Option String) :
    ∀ (l : List Batch) (st : St) (rem : Int),
      ((quickOutLoop uid reason ref notes st l rem).1.batches.map fun x => x.id)
        = st.batches.map fun x => x.id := by
  intro l
  induction l with
  | nil => intro st rem; rfl
  | cons b rest ih =>
    intro st rem
    by_cases h : rem ≤ 0
    · rw [quickOutLoop, if_pos h]
    · rw [quickOutLoop_cons uid reason ref notes st b rest rem h]
      rw [show ((quickOutLoop uid reason ref notes
            (applyEntry st (outTxn uid reason ref notes b.id (min b.quantity rem)))
            rest (rem - min b.quantity rem)).1,
          outTxn uid reason ref notes b.id (min b.quantity rem)
            :: (quickOutLoop uid reason ref notes
            (applyEntry st (outTxn uid reason ref notes b.id (min b.quantity rem)))
            rest (rem - min b.quantity rem)).2.1,
          (quickOutLoop uid reason ref notes
            (applyEntry st (outTxn uid reason ref notes b.id (min b.quantity rem)))
            rest (rem - min b.quantity rem)).2.2).1
        = (quickOutLoop uid reason ref notes
            (applyEntry st (outTxn uid reason ref notes b.id (min b.quantity rem)))
            rest (rem - min b.quantity rem)).1 from rfl]
      rw [ih]
      exact applyEntry_ids st _

lemma filter_sum_pos (pid : Nat) :
    ∀ l : List Batch, (∀ b ∈ l, 0 ≤ b.quantity) →
      ((l.filter fun b => b.productId = pid).map fun b => b.quantity).sum
        = ((l.filter fun b => decide (b.productId = pid ∧ 0 < b.quantity)).map
            fun b => b.quantity).sum := by
  intro l
  induction l with
  | nil => intro _; rfl
  | cons b rest ih =>
    intro h
    have hrest := ih fun c hc => h c (List.mem_cons_of_mem b hc)
    have hb := h b (List.mem_cons_self b rest)
    by_cases hp : b.productId = pid
    · by_cases hq : 0 < b.quantity
      · simp [List.filter_cons, hp, hq, hrest]
      · have hq0 : b.quantity = 0 := by omega
        simp [List.filter_cons, hp, hq, hrest, hq0]
    · simp [List.filter_cons, hp, hrest]

lemma total_stock_eq_sumQ_candidates (st : St) (pid : Nat)
    (hnonneg : ∀ b ∈ st.batches, 0 ≤ b.quantity) :
    total_stock st pid = sumQ (fefoCandidates st pid) := by
  rw [total_stock_eq_sum]
  unfold productBatches sumQ fefoCandidates
  exact filter_sum_pos pid st.batches hnonneg

/-- C6: a quick-out for exactly the product's total stock empties every batch
of the product to quantity 0 and finishes with remaining 0. -/
theorem exact_exhaustion (st : St) (uid : Option Nat) (pid : Nat) (p : Product)
    (reason : String) (ref notes : Option String) (l : List Batch)
    (hp : getProduct st pid = some p)
    (hreason : reasonChoices.contains reason = true)
    (hnodup : (st.batches.map fun x => x.id).Nodup)
    (hnonneg : ∀ b ∈ st.batches, 0 ≤ b.quantity)
    (hl : isFefoOrder st pid l)
    (hq1 : 1 ≤ total_stock st pid) :
    ∃ st' ts, quickOutPost st uid pid (total_stock st pid) reason ref notes l
        = Except.ok (st', ts, 0) ∧
      ∀ b ∈ st'.batches, b.productId = pid → b.quantity = 0 := by
  have hsum_l : sumQ l = total_stock st pid := by
    rw [total_stock_eq_sumQ_candidates st pid hnonneg]
    exact (hl.1.map fun b => b.quantity).sum_eq
  have hsubset : ∀ b ∈ l, b ∈ fefoCandidates st pid := fun b hb => hl.1.subset hb
  have hposl : ∀ b ∈ l, 0 < b.quantity := by
    intro b hb
    have hh := List.of_mem_filter (hsubset b hb)
    exact (of_decide_eq_true hh).2
  have hmeml : ∀ b ∈ l, b ∈ st.batches :=
    fun b hb => (List.mem_filter.1 (hsubset b hb)).1
  have hsnap : ∀ b ∈ l, getBatch st b.id = some b :=
    fun b hb => getBatch_of_mem hnodup (hmeml b hb)
  have hnodup_l : (l.map fun x => x.id).Nodup := by
    have hsl : ((fefoCandidates st pid).map fun x => x.id).Sublist
        (st.batches.map fun x => x.id) :=
      (List.filter_sublist st.batches).map _
    exact ((hl.1.map fun x => x.id).nodup_iff).2 (hsl.nodup hnodup)
  obtain ⟨hrem0, hall, hunch⟩ :=
    quickOutLoop_drain uid reason ref notes l st hposl hsnap hnodup_l
  rw [hsum_l] at hrem0 hall hunch
  have hpost : quickOutPost st uid pid (total_stock st pid) reason ref notes l
      = Except.ok (quickOutLoop uid reason ref notes st l (total_stock st pid)) := by
    unfold quickOutPost
    rw [if_neg (show ¬ total_stock st pid < 1 by omega), hreason, hp]
    dsimp only
    rw [if_neg (show ¬ total_stock st pid < total_stock st pid by omega)]
    rfl
  refine ⟨(quickOutLoop uid reason ref notes st l (total_stock st pid)).1,
    (quickOutLoop uid reason ref notes st l (total_stock st pid)).2.1, ?_, ?_⟩
  · rw [hpost, ← hrem0]
  · intro b' hb' hpid'
    have hids := quickOutLoop_ids uid reason ref notes l st (total_stock st pid)
    have hnodup2 : (((quickOutLoop uid reason ref notes st l
        (total_stock st pid)).1.batches.map fun x => x.id)).Nodup := by
      rw [hids]; exact hnodup
    have hgb' := getBatch_of_mem hnodup2 hb'
    have hidmem : b'.id ∈ st.batches.map fun x => x.id := by
      rw [← hids]
      exact List.mem_map_of_mem _ hb'
    rcases List.mem_map.1 hidmem with ⟨b0, hb0, hid0⟩
    by_cases hcand : b0 ∈ fefoCandidates st pid
    · have hbl : b0 ∈ l := (hl.1.mem_iff).2 hcand
      have hz := hall b0 hbl
      rw [hid0, hgb'] at hz
      injection hz with hz2
      rw [hz2]
    · have hid_notin : ∀ c ∈ l, ¬ c.id = b0.id := by
        intro c hc hcid
        have hceq : c = b0 := List.inj_on_of_nodup_map hnodup (hmeml c hc) hb0 hcid
        exact hcand (hceq ▸ hsubset c hc)
      have hunb := hunch b0.id hid_notin
      rw [getBatch_of_mem hnodup hb0, hid0, hgb'] at hunb
      have hb'eq : b' = b0 := by injection hunb
      have hnotc : ¬ (b0.productId = pid ∧ 0 < b0.quantity) := by
        intro hcon
        exact hcand (List.mem_filter.2 ⟨hb0, by simpa using hcon⟩)
      have hge := hnonneg b0 hb0
      rw [hb'eq]
      rw [hb'eq] at hpid'
      by_contra hq
      exact hnotc ⟨hpid', by omega⟩

lemma expiryLE_antisymm {x y : Option Nat} (h1 : expiryLE x y = true)
    (h2 : expiryLE y x = true) : x = y := by
  cases x <;> cases y <;> simp [expiryLE] at h1 h2 ⊢
  omega

lemma fefoOrder_unique {st : St} {pid : Nat} {l m : List Batch}
    (hl : isFefoOrder st pid l) (hm : isFefoOrder st pid m)
    (hinj : m.Pairwise fun a b => a.expiryDate = b.expiryDate → a = b) : l = m := by
  haveI hanti : IsAntisymm Batch (fun a b =>
      expiryLE a.expiryDate b.expiryDate = true ∧ (a.expiryDate = b.expiryDate → a = b)) :=
    ⟨fun a b h1 h2 => h1.2 (expiryLE_antisymm h1.1 h2.1)⟩
  have hperm : l.Perm m := hl.1.trans hm.1.symm
  have hsymm : ∀ {x y : Batch}, (x.expiryDate = y.expiryDate → x = y) →
      (y.expiryDate = x.expiryDate → y = x) :=
    fun h e => (h e.symm).symm
  have hinj_l : l.Pairwise fun a b => a.expiryDate = b.expiryDate → a = b :=
    (hperm.pairwise_iff hsymm).2 hinj
  exact List.eq_of_perm_of_sorted hperm (hl.2.and hinj_l) (hm.2.and hinj)

/-- C3: on the spec's example — batches `[2024-05-01: 10, 2024-03-01: 5,
null: 20]` — allocating 12 units deducts 5 from the 2024-03-01 batch, then 7
from the 2024-05-01 batch, and leaves the null-expiry batch untouched, for
every row order the query can produce (the expiry keys are distinct, so the
order is in fact unique). -/
theorem fefo_order_example (l : List Batch) (hl : isFefoOrder stC3 1 l) :
    ∃ st', quickOutPost stC3 none 1 12 "sale" none none l
        = Except.ok (st',
          [outTxn none "sale" none none 2 5, outTxn none "sale" none none 1 7], 0) ∧
      getBatch st' 2 = some { bC3b with quantity := 0 } ∧
      getBatch st' 1 = some { bC3a with quantity := 3 } ∧
      getBatch st' 3 = some bC3c := by
  have hm : isFefoOrder stC3 1 [bC3b, bC3a, bC3c] := by decide
  have hinj : [bC3b, bC3a, bC3c].Pairwise
      (fun a b => a.expiryDate = b.expiryDate → a = b) := by decide
  rw [fefoOrder_unique hl hm hinj]
  exact ⟨_, rfl, rfl, rfl, rfl⟩

/-- Witness for C3 at the unique sorted row order. -/
theorem fefo_order_example_witness :
    ∃ st', quickOutPost stC3 none 1 12 "sale" none none [bC3b, bC3a, bC3c]
        = Except.ok (st',
          [outTxn none "sale" none none 2 5, outTxn none "sale" none none 1 7], 0) ∧
      getBatch st' 2 = some { bC3b with quantity := 0 } ∧
      getBatch st' 1 = some { bC3a with quantity := 3 } ∧
      getBatch st' 3 = some bC3c :=
  fefo_order_example [bC3b, bC3a, bC3c] (by decide)

/-- C7 counterexample: two batches share expiry 2024-06-01; `bC7a` was
created first (creation 10 < 20).  The row order `[bC7b, bC7a]` is a possible
result of the quick-out query (the explicit `order_by('expiry_date')` has no
`created_at` key), and with it the allocator draws the whole request from the
later-created `bC7b`, leaving the earlier-created `bC7a` untouched — so the
claimed oldest-first tie-break does not hold. -/
theorem fefo_no_creation_tiebreak :
    bC7a.expiryDate = bC7b.expiryDate ∧ bC7a.createdAt < bC7b.createdAt ∧
    isFefoOrder stC7 2 [bC7b, bC7a] ∧
    ∃ st', quickOutPost stC7 none 2 3 "sale" none none [bC7b, bC7a]
        = Except.ok (st', [outTxn none "sale" none none 2 3], 0) ∧
      getBatch st' 1 = some bC7a ∧
      getBatch st' 2 = some { bC7b with quantity := 2 } := by
  refine ⟨rfl, by decide, by decide, _, rfl, rfl, rfl⟩

lemma quickOutLoop_batchIds (uid : Option Nat) (reason : String) (ref notes : Option String) :
    ∀ (l : List Batch) (st : St) (rem : Int),
      ∃ k, ((quickOutLoop uid reason ref notes st l rem).2.1.map fun t => t.batchId)
        = ((l.take k).map fun b => b.id) := by
  intro l
  induction l with
  | nil => intro st rem; exact ⟨0, rfl⟩
  | cons b rest ih =>
    intro st rem
    by_cases h : rem ≤ 0
    · refine ⟨0, ?_⟩
      rw [quickOutLoop, if_pos h]
      rfl
    · obtain ⟨k, hk⟩ :=
        ih (applyEntry st (outTxn uid reason ref notes b.id (min b.quantity rem)))
          (rem - min b.quantity rem)
      refine ⟨k + 1, ?_⟩
      rw [quickOutLoop_cons uid reason ref notes st b rest rem h]
      dsimp only
      rw [List.map_cons, List.take_succ_cons, List.map_cons, hk]
      rfl

/-- C7 amended: the quick-out query orders candidate rows only by expiry
(the explicit `order_by` replaces the model's creation-time `Meta` ordering),
so among equal-expiry batches no creation-time order is guaranteed; what
holds is that deductions follow the row order the database returned: the
drawn batches are an initial segment of that order, which is weakly sorted by
expiry with nulls last. -/
theorem fefo_draw_order_prefix (st : St) (uid : Option Nat) (pid : Nat) (qty : Int)
    (reason : String) (ref notes : Option String) (l : List Batch)
    (st' : St) (ts : List Txn) (rem : Int)
    (hl : isFefoOrder st pid l)
    (hok : quickOutPost st uid pid qty reason ref notes l = Except.ok (st', ts, rem)) :
    ∃ k, (ts.map fun t => t.batchId) = ((l.take k).map fun b => b.id) ∧
      (l.take k).Pairwise fun a b => expiryLE a.expiryDate b.expiryDate = true := by
  unfold quickOutPost at hok
  split at hok
  · exact Except.noConfusion hok
  · split at hok
    · exact Except.noConfusion hok
    · split at hok
      · exact Except.noConfusion hok
      · split at hok
        · exact Except.noConfusion hok
        · obtain ⟨k, hk⟩ := quickOutLoop_batchIds uid reason ref notes l st qty
          injection hok with hok2
          rw [hok2] at hk
          exact ⟨k, hk, List.Pairwise.sublist (List.take_sublist k l) hl.2⟩

/-- Witness for the amended C7: with the row order `[bC7b, bC7a]` of the
counterexample store, the single deduction is the initial segment of length 1
of that order. -/
theorem fefo_draw_order_prefix_witness :
    ∃ k, (([outTxn none "sale" none none 2 3] : List Txn).map fun t => t.batchId)
        = (([bC7b, bC7a].take k).map fun b => b.id) ∧
      ([bC7b, bC7a].take k).Pairwise fun a b => expiryLE a.expiryDate b.expiryDate = true :=
  fefo_draw_order_prefix stC7 none 2 3 "sale" none none [bC7b, bC7a] _ _ 0
    (by decide) rfl

/-- Witness for C6: on a store holding 10 units across two batches, a
quick-out of the total stock empties both batches and leaves remainder 0. -/
theorem exact_exhaustion_witness :
    ∃ st' ts, quickOutPost stC6 none 1 (total_stock stC6 1) "sale" none none [bC6a, bC6b]
        = Except.ok (st', ts, 0) ∧
      ∀ b ∈ st'.batches, b.productId = 1 → b.quantity = 0 :=
  exact_exhaustion stC6 none 1 { id := 1 } "sale" none none [bC6a, bC6b]
    rfl (by decide) (by decide) (by decide) (by decide) (by decide)

/-- Witness for C4: on a store with 3 units total, requesting 5 is rejected
with no state change, and requesting 2 proceeds. -/
theorem overrequest_rejected_witness :
    (quickOutPost stC4 none 1 5 "sale" none none stC4.batches
        = Except.error Err.validationError ∧
      step stC4 (Op.quickOut none 1 5 "sale" none none stC4.batches) = stC4) ∧
    (∃ r, quickOutPost stC4 none 1 2 "sale" none none stC4.batches = Except.ok r) := by
  constructor
  · exact (overrequest_rejected stC4 none 1 { id := 1 } 5 "sale" none none stC4.batches
      rfl (by decide) (by decide)).1 (by decide)
  · exact (overrequest_rejected stC4 none 1 { id := 1 } 2 "sale" none none stC4.batches
      rfl (by decide) (by decide)).2 (by decide)

end SmartInventory
